import Mathlib

/-! Verification of the chrono spatial-transform core: the `ChCoordsys` pose
algebra (point/pose local-to-parent and parent-to-local mappings, the
triad-to-quaternion constructor with its trace-based branch) and the
`ChTire::disc_terrain_contact` disc/heightfield contact query.

Real-valued source quantities are embedded over `ℝ` (exact real
arithmetic).  Definitions are translated from `src/chrono/core/ChCoordsys.h`
and `src/chrono_vehicle/wheeled_vehicle/ChTire.cpp`; the vector and
quaternion leaf operations, whose header files are not part of the sample,
are modelled from the spec (and from the doc comments in `ChCoordsys.h`,
which define the rotation as the quaternion sandwich `q*[0,v]*q'`).
-/

noncomputable section

namespace Chrono

/-- Three-component real vector (`ChVector<Real>`). -/
@[ext]
structure ChVector where
  x : ℝ
  y : ℝ
  z : ℝ

/-- Four-component quaternion (`ChQuaternion<Real>`), scalar part `e0`. -/
@[ext]
structure ChQuaternion where
  e0 : ℝ
  e1 : ℝ
  e2 : ℝ
  e3 : ℝ

/-- Modelled from the spec: componentwise vector addition (`ChVector::operator+`,
header not in the sample). -/
def vadd (a b : ChVector) : ChVector := ⟨a.x + b.x, a.y + b.y, a.z + b.z⟩

/-- Modelled from the spec: componentwise vector subtraction (`ChVector::operator-`). -/
def vsub (a b : ChVector) : ChVector := ⟨a.x - b.x, a.y - b.y, a.z - b.z⟩

/-- Modelled from the spec: scalar multiple of a vector (`operator*(Real, ChVector)`). -/
def vscale (s : ℝ) (a : ChVector) : ChVector := ⟨s * a.x, s * a.y, s * a.z⟩

/-- Modelled from the spec: componentwise division of a vector by a scalar
(`ChVector::operator/`). -/
def vdiv (a : ChVector) (s : ℝ) : ChVector := ⟨a.x / s, a.y / s, a.z / s⟩

/-- Modelled from the spec: vector dot product (`Vdot`). -/
def Vdot (a b : ChVector) : ℝ := a.x * b.x + a.y * b.y + a.z * b.z

/-- Modelled from the spec: vector cross product (`Vcross`, `ChVector::operator%`). -/
def Vcross (a b : ChVector) : ChVector :=
  ⟨a.y * b.z - a.z * b.y, a.z * b.x - a.x * b.z, a.x * b.y - a.y * b.x⟩

/-- Modelled from the spec: squared length of a vector (`ChVector::Length2`). -/
def Length2 (a : ChVector) : ℝ := Vdot a a

/-- Modelled from the spec: vector length (`ChVector::Length`). -/
def Length (a : ChVector) : ℝ := Real.sqrt (Length2 a)

/-- Modelled from the spec: `ChVector::Normalize`, i.e. `v / |v|`
(degenerate zero-length input is a caller precondition). -/
def vnormalize (a : ChVector) : ChVector := vdiv a (Length a)

/-- Modelled from the spec: quaternion squared norm (`e0²+e1²+e2²+e3²`). -/
def QnormSq (q : ChQuaternion) : ℝ := q.e0 ^ 2 + q.e1 ^ 2 + q.e2 ^ 2 + q.e3 ^ 2

/-- Modelled from the spec: Hamilton quaternion product
(`Qcross`, i.e. `ChQuaternion::operator%` and rotation composition `*`). -/
def Qcross (qa qb : ChQuaternion) : ChQuaternion :=
  ⟨qa.e0 * qb.e0 - qa.e1 * qb.e1 - qa.e2 * qb.e2 - qa.e3 * qb.e3,
   qa.e0 * qb.e1 + qa.e1 * qb.e0 + qa.e2 * qb.e3 - qa.e3 * qb.e2,
   qa.e0 * qb.e2 - qa.e1 * qb.e3 + qa.e2 * qb.e0 + qa.e3 * qb.e1,
   qa.e0 * qb.e3 + qa.e1 * qb.e2 - qa.e2 * qb.e1 + qa.e3 * qb.e0⟩

/-- Modelled from the spec: quaternion conjugate (`ChQuaternion::GetConjugate`). -/
def ChQuaternion.GetConjugate (q : ChQuaternion) : ChQuaternion := ⟨q.e0, -q.e1, -q.e2, -q.e3⟩

/-- A vector as a pure quaternion `[0, v]`. -/
def pureQuat (v : ChVector) : ChQuaternion := ⟨0, v.x, v.y, v.z⟩

/-- Modelled from the spec: `ChQuaternion::Rotate`, the sandwich `q*[0,v]*q'`
documented at `ChCoordsys.h:277` (vector part of the product). -/
def ChQuaternion.Rotate (q : ChQuaternion) (v : ChVector) : ChVector :=
  let r := Qcross (Qcross q (pureQuat v)) q.GetConjugate
  ⟨r.e1, r.e2, r.e3⟩

/-- Modelled from the spec: `ChQuaternion::RotateBack`, the sandwich
`q'*[0,v]*q` documented at `ChCoordsys.h:285`. -/
def ChQuaternion.RotateBack (q : ChQuaternion) (v : ChVector) : ChVector :=
  let r := Qcross (Qcross q.GetConjugate (pureQuat v)) q
  ⟨r.e1, r.e2, r.e3⟩

/-- Pose: translation + rotation quaternion (`ChCoordsys<Real>`). -/
@[ext]
structure ChCoordsys where
  pos : ChVector
  rot : ChQuaternion

/-- Source `ChCoordsys::TransformLocalToParent(const ChVector&)` (ChCoordsys.h:278):
`pos + rot.Rotate(local)`. -/
def ChCoordsys.TransformLocalToParent (c : ChCoordsys) (l : ChVector) : ChVector :=
  vadd c.pos (c.rot.Rotate l)

/-- Source `ChCoordsys::TransformParentToLocal(const ChVector&)` (ChCoordsys.h:286):
`rot.RotateBack(parent - pos)`. -/
def ChCoordsys.TransformParentToLocal (c : ChCoordsys) (p : ChVector) : ChVector :=
  c.rot.RotateBack (vsub p c.pos)

/-- Source `ChCoordsys::TransformLocalToParent(const ChCoordsys&)` (ChCoordsys.h:304-306):
`ChCoordsys(TransformLocalToParent(local.pos), rot % local.rot)`. -/
def ChCoordsys.TransformLocalToParentCsys (c : ChCoordsys) (l : ChCoordsys) : ChCoordsys :=
  ⟨c.TransformLocalToParent l.pos, Qcross c.rot l.rot⟩

/-- Source `ChCoordsys::getMaxIdx` (ChCoordsys.h:101-105). -/
def getMaxIdx (x0 x1 x2 : ℝ) : ℕ :=
  if x0 ≥ x1 ∧ x0 ≥ x2 then 0 else if x1 ≥ x2 then 1 else 2

/-- Rotation-matrix-to-quaternion conversion, the body of the triad
constructor (ChCoordsys.h:73-99).  Arguments are the entries `R[i][j]`
in row-major order.  The `trace < 0` pivot branch of the source writes
`e[0]`, `e[i0+1]`, `e[i1+1]`, `e[i2+1]` with `i1 = (i0+1)%3`,
`i2 = (i1+1)%3`; here that indexing is unrolled into the three concrete
cases `i0 = 0, 1, 2`. -/
def matToQuat (r00 r01 r02 r10 r11 r12 r20 r21 r22 : ℝ) : ChQuaternion :=
  let tr := r00 + r11 + r22
  if 0 ≤ tr then
    let s := Real.sqrt (1 + tr) * 2
    ⟨s / 4, (r12 - r21) / s, (r20 - r02) / s, (r01 - r10) / s⟩
  else
    let i0 := getMaxIdx r00 r11 r22
    if i0 = 0 then
      -- i1 = 1, i2 = 2
      let s := Real.sqrt (1 + r00 - r11 - r22) * 2
      ⟨(r21 - r12) / s, s / 4, (r01 + r10) / s, (r02 + r20) / s⟩
    else if i0 = 1 then
      -- i1 = 2, i2 = 0
      let s := Real.sqrt (1 + r11 - r22 - r00) * 2
      ⟨(r02 - r20) / s, (r10 + r01) / s, s / 4, (r12 + r21) / s⟩
    else
      -- i0 = 2, i1 = 0, i2 = 1
      let s := Real.sqrt (1 + r22 - r00 - r11) * 2
      ⟨(r10 - r01) / s, (r20 + r02) / s, (r21 + r12) / s, s / 4⟩

/-- The local `ux` of the triad constructor (ChCoordsys.h:61-62):
`ux = normalize(xdir - origin)`. -/
def triadUx (origin xdir ydir : ChVector) : ChVector := vnormalize (vsub xdir origin)

/-- The local `uz` of the triad constructor (ChCoordsys.h:63-64):
`uz = normalize(ux × (ydir - origin))`. -/
def triadUz (origin xdir ydir : ChVector) : ChVector :=
  vnormalize (Vcross (triadUx origin xdir ydir) (vsub ydir origin))

/-- The local `uy` of the triad constructor (ChCoordsys.h:65-66):
`uy = normalize(uz × ux)`. -/
def triadUy (origin xdir ydir : ChVector) : ChVector :=
  vnormalize (Vcross (triadUz origin xdir ydir) (triadUx origin xdir ydir))

/-- Triad constructor `ChCoordsys(origin, xdir, ydir)` (ChCoordsys.h:57-100):
orthonormal frame from the three points, then trace-based conversion of the
column matrix `[ux uy uz]` to a quaternion. -/
def ChCoordsys.ofTriad (origin xdir ydir : ChVector) : ChCoordsys :=
  let ux := triadUx origin xdir ydir
  let uy := triadUy origin xdir ydir
  let uz := triadUz origin xdir ydir
  ⟨origin, matToQuat ux.x uy.x uz.x ux.y uy.y uz.y ux.z uy.z uz.z⟩

/-- The trace `R[0][0] + R[1][1] + R[2][2]` computed inside the triad
constructor (ChCoordsys.h:75). -/
def triadTrace (origin xdir ydir : ChVector) : ℝ :=
  (triadUx origin xdir ydir).x + (triadUy origin xdir ydir).y + (triadUz origin xdir ydir).z

/-- Terrain oracle: height field plus normal query (`ChTerrain` interface
as used by `ChTire::disc_terrain_contact`). -/
structure ChTerrain where
  GetHeight : ℝ → ℝ → ℝ
  GetNormal : ℝ → ℝ → ChVector

/-- Source `ChTire::disc_terrain_contact` (ChTire.cpp:48-94), embedded with
explicit state passing for the two C++ output parameters `contact` and
`depth`: the result is `(return value, contact, depth)` and the incoming
values are returned unchanged on the `false` paths.  The contact
orientation (`ChMatrix33::Set_A_axis` on the axes longitudinal/lateral/
normal followed by `Get_A_quaternion`, headers not in the sample) is
modelled from the spec as the matrix-to-quaternion conversion applied to
the column matrix `[longitudinal lateral normal]`. -/
def disc_terrain_contact (terrain : ChTerrain) (disc_center disc_normal : ChVector)
    (disc_radius : ℝ) (contact : ChCoordsys) (depth : ℝ) : Bool × ChCoordsys × ℝ :=
  let hc := terrain.GetHeight disc_center.x disc_center.y
  if disc_center.z ≤ hc ∨ disc_center.z ≥ hc + disc_radius then (false, contact, depth)
  else
    let dir1 := Vcross disc_normal ⟨0, 0, 1⟩
    let sinTilt2 := Length2 dir1
    if sinTilt2 < 1e-3 then (false, contact, depth)
    else
      let ptD := vadd disc_center
        (vscale disc_radius (Vcross disc_normal (vdiv dir1 (Real.sqrt sinTilt2))))
      let hp := terrain.GetHeight ptD.x ptD.y
      if ptD.z > hp then (false, contact, depth)
      else
        let normal := terrain.GetNormal ptD.x ptD.y
        let longitudinal := vnormalize (Vcross disc_normal normal)
        let lateral := Vcross normal longitudinal
        let rot := matToQuat longitudinal.x lateral.x normal.x
          longitudinal.y lateral.y normal.y longitudinal.z lateral.z normal.z
        (true, ⟨ptD, rot⟩, Vdot ⟨0, 0, hp - ptD.z⟩ normal)

/-! Section: Helper lemmas -/

/-- Back-rotation undoes rotation up to the fourth power of the quaternion
norm (a polynomial identity, no unit-norm hypothesis needed). -/
lemma rotateBack_rotate (q : ChQuaternion) (v : ChVector) :
    q.RotateBack (q.Rotate v) = vscale ((QnormSq q) ^ 2) v := by
  ext <;>
    simp only [ChQuaternion.Rotate, ChQuaternion.RotateBack, ChQuaternion.GetConjugate,
      Qcross, pureQuat, QnormSq, vscale] <;>
    ring

/-- Scaling a vector by one is the identity. -/
lemma vscale_one (v : ChVector) : vscale 1 v = v := by
  ext <;> simp [vscale]

/-- Subtracting the added offset recovers the vector. -/
lemma vsub_vadd_cancel (a b : ChVector) : vsub (vadd a b) a = b := by
  ext <;> simp [vsub, vadd]

/-- Core of the unit-norm argument shared by all four conversion branches:
if the three squared off-pivot numerators sum to `4m - m²` and `s = 2√m`
with `m > 0`, the four quaternion components have unit squared norm. -/
lemma branch_core (m s X Y Z : ℝ) (hm : 0 < m) (hs : s = Real.sqrt m * 2)
    (key : X ^ 2 + Y ^ 2 + Z ^ 2 = 4 * m - m ^ 2) :
    (s / 4) ^ 2 + (X / s) ^ 2 + (Y / s) ^ 2 + (Z / s) ^ 2 = 1 := by
  have hs2 : s ^ 2 = 4 * m := by rw [hs, mul_pow, Real.sq_sqrt hm.le]; ring
  have hmne : m ≠ 0 := ne_of_gt hm
  calc (s / 4) ^ 2 + (X / s) ^ 2 + (Y / s) ^ 2 + (Z / s) ^ 2
      = s ^ 2 / 16 + (X ^ 2 + Y ^ 2 + Z ^ 2) / s ^ 2 := by ring
    _ = (4 * m) / 16 + (4 * m - m ^ 2) / (4 * m) := by rw [hs2, key]
    _ = 1 := by field_simp; ring

/-- Branch equation: the `trace ≥ 0` branch of the conversion. -/
lemma matToQuat_eq_pos (r00 r01 r02 r10 r11 r12 r20 r21 r22 : ℝ)
    (h : 0 ≤ r00 + r11 + r22) :
    matToQuat r00 r01 r02 r10 r11 r12 r20 r21 r22 =
      ⟨Real.sqrt (1 + (r00 + r11 + r22)) * 2 / 4,
       (r12 - r21) / (Real.sqrt (1 + (r00 + r11 + r22)) * 2),
       (r20 - r02) / (Real.sqrt (1 + (r00 + r11 + r22)) * 2),
       (r01 - r10) / (Real.sqrt (1 + (r00 + r11 + r22)) * 2)⟩ := by
  simp [matToQuat, h]

/-- Branch equation: the `trace < 0` branch with pivot index 0. -/
lemma matToQuat_eq_piv0 (r00 r01 r02 r10 r11 r12 r20 r21 r22 : ℝ)
    (h : ¬ 0 ≤ r00 + r11 + r22) (h0 : r00 ≥ r11 ∧ r00 ≥ r22) :
    matToQuat r00 r01 r02 r10 r11 r12 r20 r21 r22 =
      ⟨(r21 - r12) / (Real.sqrt (1 + r00 - r11 - r22) * 2),
       Real.sqrt (1 + r00 - r11 - r22) * 2 / 4,
       (r01 + r10) / (Real.sqrt (1 + r00 - r11 - r22) * 2),
       (r02 + r20) / (Real.sqrt (1 + r00 - r11 - r22) * 2)⟩ := by
  simp [matToQuat, getMaxIdx, h, h0]

/-- Branch equation: the `trace < 0` branch with pivot index 1. -/
lemma matToQuat_eq_piv1 (r00 r01 r02 r10 r11 r12 r20 r21 r22 : ℝ)
    (h : ¬ 0 ≤ r00 + r11 + r22) (h0 : ¬ (r00 ≥ r11 ∧ r00 ≥ r22)) (h1 : r11 ≥ r22) :
    matToQuat r00 r01 r02 r10 r11 r12 r20 r21 r22 =
      ⟨(r02 - r20) / (Real.sqrt (1 + r11 - r22 - r00) * 2),
       (r10 + r01) / (Real.sqrt (1 + r11 - r22 - r00) * 2),
       Real.sqrt (1 + r11 - r22 - r00) * 2 / 4,
       (r12 + r21) / (Real.sqrt (1 + r11 - r22 - r00) * 2)⟩ := by
  simp [matToQuat, getMaxIdx, h, h0, h1]

/-- Branch equation: the `trace < 0` branch with pivot index 2. -/
lemma matToQuat_eq_piv2 (r00 r01 r02 r10 r11 r12 r20 r21 r22 : ℝ)
    (h : ¬ 0 ≤ r00 + r11 + r22) (h0 : ¬ (r00 ≥ r11 ∧ r00 ≥ r22)) (h1 : ¬ r11 ≥ r22) :
    matToQuat r00 r01 r02 r10 r11 r12 r20 r21 r22 =
      ⟨(r10 - r01) / (Real.sqrt (1 + r22 - r00 - r11) * 2),
       (r20 + r02) / (Real.sqrt (1 + r22 - r00 - r11) * 2),
       (r21 + r12) / (Real.sqrt (1 + r22 - r00 - r11) * 2),
       Real.sqrt (1 + r22 - r00 - r11) * 2 / 4⟩ := by
  simp [matToQuat, getMaxIdx, h, h0, h1]

/-- The matrix-to-quaternion conversion yields an exactly unit-norm
quaternion on every branch, when the columns are `p`, `r × p`, `r` with
`p`, `r` orthonormal. -/
lemma matToQuat_unitNorm (p r : ChVector) (hp : Vdot p p = 1) (hr : Vdot r r = 1)
    (hpr : Vdot p r = 0) :
    QnormSq (matToQuat p.x (Vcross r p).x r.x p.y (Vcross r p).y r.y
      p.z (Vcross r p).z r.z) = 1 := by
  obtain ⟨a, b, c⟩ := p
  obtain ⟨u, v, w⟩ := r
  simp only [Vdot] at hp hr hpr
  simp only [Vcross]
  have hp' : a ^ 2 + b ^ 2 + c ^ 2 = 1 := by linear_combination hp
  have hr' : u ^ 2 + v ^ 2 + w ^ 2 = 1 := by linear_combination hr
  have h1 : a * (w * a - u * c) - b * (v * c - w * b) = w := by
    linear_combination w * hp - c * hpr
  have h3 : (w * a - u * c) * w - (u * b - v * a) * v = a := by
    linear_combination a * hr - u * hpr
  have hqn : (v * c - w * b) ^ 2 + (w * a - u * c) ^ 2 + (u * b - v * a) ^ 2 = 1 := by
    linear_combination hp + (a ^ 2 + b ^ 2 + c ^ 2) * hr - (a * u + b * v + c * w) * hpr
  by_cases htr : (0 : ℝ) ≤ a + (w * a - u * c) + w
  · -- trace ≥ 0 branch
    rw [matToQuat_eq_pos _ _ _ _ _ _ _ _ _ htr]
    simp only [QnormSq]
    have hm : (0 : ℝ) < 1 + (a + (w * a - u * c) + w) := by linarith
    have key : (v - (u * b - v * a)) ^ 2 + (c - u) ^ 2 + (v * c - w * b - b) ^ 2 =
        4 * (1 + (a + (w * a - u * c) + w)) - (1 + (a + (w * a - u * c) + w)) ^ 2 := by
      linear_combination hp' + hqn + hr' + 2 * h1 + 2 * h3
    linear_combination branch_core (1 + (a + (w * a - u * c) + w)) _
      (v - (u * b - v * a)) (c - u) (v * c - w * b - b) hm rfl key
  by_cases hA : a ≥ w * a - u * c ∧ a ≥ w
  · -- pivot i0 = 0
    rw [matToQuat_eq_piv0 _ _ _ _ _ _ _ _ _ htr hA]
    simp only [QnormSq]
    have hm : (0 : ℝ) < 1 + a - (w * a - u * c) - w := by
      obtain ⟨ha1, ha2⟩ := hA
      push_neg at htr
      linarith
    have key : (u * b - v * a - v) ^ 2 + (v * c - w * b + b) ^ 2 + (u + c) ^ 2 =
        4 * (1 + a - (w * a - u * c) - w) - (1 + a - (w * a - u * c) - w) ^ 2 := by
      linear_combination hp' + hqn + hr' - 2 * h1 + 2 * h3
    linear_combination branch_core (1 + a - (w * a - u * c) - w) _
      (u * b - v * a - v) (v * c - w * b + b) (u + c) hm rfl key
  by_cases hB : w * a - u * c ≥ w
  · -- pivot i0 = 1
    rw [matToQuat_eq_piv1 _ _ _ _ _ _ _ _ _ htr hA hB]
    simp only [QnormSq]
    push_neg at htr hA
    have hm : (0 : ℝ) < 1 + (w * a - u * c) - w - a := by
      rcases le_or_lt (w * a - u * c) a with hle | hlt
      · have := hA hle
        linarith
      · linarith
    have key : (u - c) ^ 2 + (b + (v * c - w * b)) ^ 2 + (v + (u * b - v * a)) ^ 2 =
        4 * (1 + (w * a - u * c) - w - a) - (1 + (w * a - u * c) - w - a) ^ 2 := by
      linear_combination hp' + hqn + hr' - 2 * h1 - 2 * h3
    linear_combination branch_core (1 + (w * a - u * c) - w - a) _
      (u - c) (b + (v * c - w * b)) (v + (u * b - v * a)) hm rfl key
  · -- pivot i0 = 2
    rw [matToQuat_eq_piv2 _ _ _ _ _ _ _ _ _ htr hA hB]
    simp only [QnormSq]
    push_neg at htr hA hB
    have hm : (0 : ℝ) < 1 + w - a - (w * a - u * c) := by
      rcases le_or_lt (w * a - u * c) a with hle | hlt
      · have := hA hle
        linarith
      · linarith
    have key : (b - (v * c - w * b)) ^ 2 + (c + u) ^ 2 + (u * b - v * a + v) ^ 2 =
        4 * (1 + w - a - (w * a - u * c)) - (1 + w - a - (w * a - u * c)) ^ 2 := by
      linear_combination hp' + hqn + hr' + 2 * h1 - 2 * h3
    linear_combination branch_core (1 + w - a - (w * a - u * c)) _
      (b - (v * c - w * b)) (c + u) (u * b - v * a + v) hm rfl key

/-- A nonzero vector has positive squared length. -/
lemma vdot_pos_of_ne (v : ChVector) (h : v ≠ ⟨0, 0, 0⟩) : 0 < Vdot v v := by
  obtain ⟨x, y, z⟩ := v
  simp only [Vdot]
  rcases lt_or_eq_of_le
      (by nlinarith [mul_self_nonneg x, mul_self_nonneg y, mul_self_nonneg z] :
        (0 : ℝ) ≤ x * x + y * y + z * z) with hlt | heq
  · exact hlt
  · exfalso
    apply h
    have hx : x = 0 := by nlinarith
    have hy : y = 0 := by nlinarith
    have hz : z = 0 := by nlinarith
    simp [hx, hy, hz]

/-- Normalizing a vector of positive squared length yields a unit vector. -/
lemma vnormalize_unit (v : ChVector) (h : 0 < Vdot v v) :
    Vdot (vnormalize v) (vnormalize v) = 1 := by
  obtain ⟨x, y, z⟩ := v
  simp only [Vdot, vnormalize, vdiv, Length, Length2] at *
  have hs : Real.sqrt (x * x + y * y + z * z) ^ 2 = x * x + y * y + z * z :=
    Real.sq_sqrt h.le
  have hsne : Real.sqrt (x * x + y * y + z * z) ≠ 0 := by
    intro h0
    rw [h0] at hs
    nlinarith
  field_simp

/-- Normalizing an exactly unit vector is the identity. -/
lemma vnormalize_of_unit (v : ChVector) (h : Vdot v v = 1) : vnormalize v = v := by
  unfold vnormalize Length Length2
  rw [h, Real.sqrt_one]
  ext <;> simp [vdiv]

/-- Cross product with a scaled first factor. -/
lemma vcross_vdiv_left (a b : ChVector) (s : ℝ) :
    Vcross (vdiv a s) b = vdiv (Vcross a b) s := by
  ext <;> simp [Vcross, vdiv] <;> ring

/-- Dot product of two scaled vectors. -/
lemma vdot_vdiv_vdiv (a b : ChVector) (s t : ℝ) :
    Vdot (vdiv a s) (vdiv b t) = Vdot a b / (s * t) := by
  simp only [Vdot, vdiv]
  ring

/-- Dot product with a scaled second factor. -/
lemma vdot_vdiv_right (a b : ChVector) (s : ℝ) :
    Vdot a (vdiv b s) = Vdot a b / s := by
  simp only [Vdot, vdiv]
  ring

/-- A vector is orthogonal to any cross product it enters. -/
lemma vdot_self_cross (a b : ChVector) : Vdot a (Vcross a b) = 0 := by
  simp only [Vdot, Vcross]
  ring

/-- Lagrange identity for the squared length of a cross product. -/
lemma vdot_cross_self (a b : ChVector) :
    Vdot (Vcross a b) (Vcross a b) = Vdot a a * Vdot b b - Vdot a b ^ 2 := by
  simp only [Vdot, Vcross]
  ring

/-- Dot product is symmetric. -/
lemma vdot_comm (a b : ChVector) : Vdot a b = Vdot b a := by
  simp only [Vdot]
  ring

/-! Section: C6 -/

/-- C6: for every triad input satisfying the non-colinearity precondition
(`xdir - origin` nonzero and `ydir - origin` not parallel to it), the
constructed pose has position `origin` and an orientation quaternion of
exactly unit norm, in every branch, with no final normalization step. -/
theorem C6_triad_unit_norm (origin xdir ydir : ChVector)
    (h1 : vsub xdir origin ≠ ⟨0, 0, 0⟩)
    (h2 : Vcross (vsub xdir origin) (vsub ydir origin) ≠ ⟨0, 0, 0⟩) :
    (ChCoordsys.ofTriad origin xdir ydir).pos = origin ∧
      QnormSq (ChCoordsys.ofTriad origin xdir ydir).rot = 1 := by
  refine ⟨rfl, ?_⟩
  have hv : 0 < Vdot (vsub xdir origin) (vsub xdir origin) := vdot_pos_of_ne _ h1
  have hlen : (0 : ℝ) < Length (vsub xdir origin) := Real.sqrt_pos.mpr hv
  have hcross : 0 < Vdot (Vcross (vsub xdir origin) (vsub ydir origin))
      (Vcross (vsub xdir origin) (vsub ydir origin)) := vdot_pos_of_ne _ h2
  simp only [ChCoordsys.ofTriad, triadUy, triadUz, triadUx]
  set vv := vsub xdir origin with hvv_def
  set ww := vsub ydir origin with hww_def
  set ux := vnormalize vv with hux_def
  set cz := Vcross ux ww with hcz_def
  set uz := vnormalize cz with huz_def
  have f1 : Vdot ux ux = 1 := vnormalize_unit vv hv
  have hcz_pos : 0 < Vdot cz cz := by
    rw [hcz_def, hux_def, vnormalize, vcross_vdiv_left, vdot_vdiv_vdiv]
    exact div_pos hcross (by positivity)
  have f3 : Vdot uz uz = 1 := vnormalize_unit cz hcz_pos
  have f4 : Vdot ux uz = 0 := by
    rw [huz_def, vnormalize, vdot_vdiv_right, hcz_def, vdot_self_cross, zero_div]
  have f6 : vnormalize (Vcross uz ux) = Vcross uz ux := by
    apply vnormalize_of_unit
    rw [vdot_cross_self, f3, f1, vdot_comm uz ux, f4]
    norm_num
  rw [f6]
  exact matToQuat_unitNorm ux uz f1 f3 f4

/-- Witness for C6 at the concrete triad `origin=(0,0,0)`, `xdir=(1,0,0)`,
`ydir=(0,1,0)`. -/
theorem C6_witness :
    vsub ⟨1, 0, 0⟩ ⟨0, 0, 0⟩ ≠ (⟨0, 0, 0⟩ : ChVector) ∧
    Vcross (vsub ⟨1, 0, 0⟩ ⟨0, 0, 0⟩) (vsub ⟨0, 1, 0⟩ ⟨0, 0, 0⟩) ≠ (⟨0, 0, 0⟩ : ChVector) ∧
    QnormSq (ChCoordsys.ofTriad ⟨0, 0, 0⟩ ⟨1, 0, 0⟩ ⟨0, 1, 0⟩).rot = 1 := by
  have ha : vsub ⟨1, 0, 0⟩ ⟨0, 0, 0⟩ ≠ (⟨0, 0, 0⟩ : ChVector) := by
    simp [vsub, ChVector.ext_iff]
  have hb : Vcross (vsub ⟨1, 0, 0⟩ ⟨0, 0, 0⟩) (vsub ⟨0, 1, 0⟩ ⟨0, 0, 0⟩) ≠
      (⟨0, 0, 0⟩ : ChVector) := by
    simp [vsub, Vcross, ChVector.ext_iff]
  exact ⟨ha, hb, (C6_triad_unit_norm ⟨0, 0, 0⟩ ⟨1, 0, 0⟩ ⟨0, 1, 0⟩ ha hb).2⟩

lemma sqrt_four : Real.sqrt 4 = 2 := by
  rw [show (4 : ℝ) = 2 ^ 2 by norm_num, Real.sqrt_sq (by norm_num : (0 : ℝ) ≤ 2)]

/-! Section: C5: the three 180-degree triads -/

lemma c5a_ux : triadUx ⟨0, 0, 0⟩ ⟨1, 0, 0⟩ ⟨0, -1, 0⟩ = ⟨1, 0, 0⟩ := by
  unfold triadUx
  rw [show vsub ⟨1, 0, 0⟩ ⟨0, 0, 0⟩ = (⟨1, 0, 0⟩ : ChVector) by ext <;> norm_num [vsub]]
  exact vnormalize_of_unit _ (by norm_num [Vdot])

lemma c5a_uz : triadUz ⟨0, 0, 0⟩ ⟨1, 0, 0⟩ ⟨0, -1, 0⟩ = ⟨0, 0, -1⟩ := by
  unfold triadUz
  rw [c5a_ux,
    show Vcross ⟨1, 0, 0⟩ (vsub ⟨0, -1, 0⟩ ⟨0, 0, 0⟩) = (⟨0, 0, -1⟩ : ChVector) by
      ext <;> norm_num [Vcross, vsub]]
  exact vnormalize_of_unit _ (by norm_num [Vdot])

lemma c5a_uy : triadUy ⟨0, 0, 0⟩ ⟨1, 0, 0⟩ ⟨0, -1, 0⟩ = ⟨0, -1, 0⟩ := by
  unfold triadUy
  rw [c5a_uz, c5a_ux,
    show Vcross ⟨0, 0, -1⟩ ⟨1, 0, 0⟩ = (⟨0, -1, 0⟩ : ChVector) by ext <;> norm_num [Vcross]]
  exact vnormalize_of_unit _ (by norm_num [Vdot])

lemma c5a_rot : (ChCoordsys.ofTriad ⟨0, 0, 0⟩ ⟨1, 0, 0⟩ ⟨0, -1, 0⟩).rot = ⟨0, 1, 0, 0⟩ := by
  simp only [ChCoordsys.ofTriad, c5a_ux, c5a_uy, c5a_uz]
  rw [matToQuat_eq_piv0 1 0 0 0 (-1) 0 0 0 (-1) (by norm_num) (by constructor <;> norm_num)]
  rw [show (1 : ℝ) + 1 - -1 - -1 = 4 by norm_num, sqrt_four]
  ext <;> norm_num

lemma c5b_ux : triadUx ⟨0, 0, 0⟩ ⟨-1, 0, 0⟩ ⟨0, 1, 0⟩ = ⟨-1, 0, 0⟩ := by
  unfold triadUx
  rw [show vsub ⟨-1, 0, 0⟩ ⟨0, 0, 0⟩ = (⟨-1, 0, 0⟩ : ChVector) by ext <;> norm_num [vsub]]
  exact vnormalize_of_unit _ (by norm_num [Vdot])

lemma c5b_uz : triadUz ⟨0, 0, 0⟩ ⟨-1, 0, 0⟩ ⟨0, 1, 0⟩ = ⟨0, 0, -1⟩ := by
  unfold triadUz
  rw [c5b_ux,
    show Vcross ⟨-1, 0, 0⟩ (vsub ⟨0, 1, 0⟩ ⟨0, 0, 0⟩) = (⟨0, 0, -1⟩ : ChVector) by
      ext <;> norm_num [Vcross, vsub]]
  exact vnormalize_of_unit _ (by norm_num [Vdot])

lemma c5b_uy : triadUy ⟨0, 0, 0⟩ ⟨-1, 0, 0⟩ ⟨0, 1, 0⟩ = ⟨0, 1, 0⟩ := by
  unfold triadUy
  rw [c5b_uz, c5b_ux,
    show Vcross ⟨0, 0, -1⟩ ⟨-1, 0, 0⟩ = (⟨0, 1, 0⟩ : ChVector) by ext <;> norm_num [Vcross]]
  exact vnormalize_of_unit _ (by norm_num [Vdot])

lemma c5b_rot : (ChCoordsys.ofTriad ⟨0, 0, 0⟩ ⟨-1, 0, 0⟩ ⟨0, 1, 0⟩).rot = ⟨0, 0, 1, 0⟩ := by
  simp only [ChCoordsys.ofTriad, c5b_ux, c5b_uy, c5b_uz]
  rw [matToQuat_eq_piv1 (-1) 0 0 0 1 0 0 0 (-1) (by norm_num) (by norm_num) (by norm_num)]
  rw [show (1 : ℝ) + 1 - -1 - -1 = 4 by norm_num, sqrt_four]
  ext <;> norm_num

lemma c5c_ux : triadUx ⟨0, 0, 0⟩ ⟨-1, 0, 0⟩ ⟨0, -1, 0⟩ = ⟨-1, 0, 0⟩ := by
  unfold triadUx
  rw [show vsub ⟨-1, 0, 0⟩ ⟨0, 0, 0⟩ = (⟨-1, 0, 0⟩ : ChVector) by ext <;> norm_num [vsub]]
  exact vnormalize_of_unit _ (by norm_num [Vdot])

lemma c5c_uz : triadUz ⟨0, 0, 0⟩ ⟨-1, 0, 0⟩ ⟨0, -1, 0⟩ = ⟨0, 0, 1⟩ := by
  unfold triadUz
  rw [c5c_ux,
    show Vcross ⟨-1, 0, 0⟩ (vsub ⟨0, -1, 0⟩ ⟨0, 0, 0⟩) = (⟨0, 0, 1⟩ : ChVector) by
      ext <;> norm_num [Vcross, vsub]]
  exact vnormalize_of_unit _ (by norm_num [Vdot])

lemma c5c_uy : triadUy ⟨0, 0, 0⟩ ⟨-1, 0, 0⟩ ⟨0, -1, 0⟩ = ⟨0, -1, 0⟩ := by
  unfold triadUy
  rw [c5c_uz, c5c_ux,
    show Vcross ⟨0, 0, 1⟩ ⟨-1, 0, 0⟩ = (⟨0, -1, 0⟩ : ChVector) by ext <;> norm_num [Vcross]]
  exact vnormalize_of_unit _ (by norm_num [Vdot])

lemma c5c_rot : (ChCoordsys.ofTriad ⟨0, 0, 0⟩ ⟨-1, 0, 0⟩ ⟨0, -1, 0⟩).rot = ⟨0, 0, 0, 1⟩ := by
  simp only [ChCoordsys.ofTriad, c5c_ux, c5c_uy, c5c_uz]
  rw [matToQuat_eq_piv2 (-1) 0 0 0 (-1) 0 0 0 1 (by norm_num) (by norm_num) (by norm_num)]
  rw [show (1 : ℝ) + 1 - -1 - -1 = 4 by norm_num, sqrt_four]
  ext <;> norm_num

/-- C5: the triad constructor yields exactly the 180-degree quaternions
`(0,1,0,0)`, `(0,0,1,0)`, `(0,0,0,1)` on the three axis-flip triads, and
each takes the `trace < 0` pivot branch. -/
theorem C5_triad_180deg :
    (ChCoordsys.ofTriad ⟨0, 0, 0⟩ ⟨1, 0, 0⟩ ⟨0, -1, 0⟩).rot = ⟨0, 1, 0, 0⟩ ∧
    triadTrace ⟨0, 0, 0⟩ ⟨1, 0, 0⟩ ⟨0, -1, 0⟩ < 0 ∧
    (ChCoordsys.ofTriad ⟨0, 0, 0⟩ ⟨-1, 0, 0⟩ ⟨0, 1, 0⟩).rot = ⟨0, 0, 1, 0⟩ ∧
    triadTrace ⟨0, 0, 0⟩ ⟨-1, 0, 0⟩ ⟨0, 1, 0⟩ < 0 ∧
    (ChCoordsys.ofTriad ⟨0, 0, 0⟩ ⟨-1, 0, 0⟩ ⟨0, -1, 0⟩).rot = ⟨0, 0, 0, 1⟩ ∧
    triadTrace ⟨0, 0, 0⟩ ⟨-1, 0, 0⟩ ⟨0, -1, 0⟩ < 0 := by
  refine ⟨c5a_rot, ?_, c5b_rot, ?_, c5c_rot, ?_⟩
  · simp only [triadTrace, c5a_ux, c5a_uy, c5a_uz]
    norm_num
  · simp only [triadTrace, c5b_ux, c5b_uy, c5b_uz]
    norm_num
  · simp only [triadTrace, c5c_ux, c5c_uy, c5c_uz]
    norm_num

/-! Section: C4: the 45-degree triads -/

lemma sqrt_two_sq : Real.sqrt 2 * Real.sqrt 2 = 2 := Real.mul_self_sqrt (by norm_num)

lemma sqrt_two_pos : 0 < Real.sqrt 2 := Real.sqrt_pos.mpr (by norm_num)

lemma sqrt_two_gt : (1.4142 : ℝ) < Real.sqrt 2 := by
  rw [Real.lt_sqrt (by norm_num)]
  norm_num

lemma sqrt_two_lt : Real.sqrt 2 < (1.4143 : ℝ) := by
  rw [Real.sqrt_lt' (by norm_num)]
  norm_num

lemma c4a_ux : triadUx ⟨0, 0, 0⟩ ⟨1, 1, 0⟩ ⟨0, 1, 0⟩ =
    ⟨1 / Real.sqrt 2, 1 / Real.sqrt 2, 0⟩ := by
  unfold triadUx
  rw [show vsub ⟨1, 1, 0⟩ ⟨0, 0, 0⟩ = (⟨1, 1, 0⟩ : ChVector) by ext <;> norm_num [vsub]]
  unfold vnormalize Length Length2
  rw [show Vdot ⟨1, 1, 0⟩ ⟨1, 1, 0⟩ = 2 by norm_num [Vdot]]
  ext <;> simp [vdiv]

lemma c4a_uz : triadUz ⟨0, 0, 0⟩ ⟨1, 1, 0⟩ ⟨0, 1, 0⟩ = ⟨0, 0, 1⟩ := by
  unfold triadUz
  rw [c4a_ux,
    show vsub ⟨0, 1, 0⟩ ⟨0, 0, 0⟩ = (⟨0, 1, 0⟩ : ChVector) by ext <;> norm_num [vsub],
    show Vcross ⟨1 / Real.sqrt 2, 1 / Real.sqrt 2, 0⟩ ⟨0, 1, 0⟩ =
      (⟨0, 0, 1 / Real.sqrt 2⟩ : ChVector) by ext <;> norm_num [Vcross]]
  unfold vnormalize Length Length2
  rw [show Vdot ⟨0, 0, 1 / Real.sqrt 2⟩ ⟨0, 0, 1 / Real.sqrt 2⟩ = 1 / 2 by
      simp only [Vdot]
      rw [div_mul_div_comm, sqrt_two_sq]
      norm_num,
    show (1 / 2 : ℝ) = 2⁻¹ by norm_num, Real.sqrt_inv]
  have hne : (Real.sqrt 2)⁻¹ ≠ 0 := by positivity
  ext <;> simp [vdiv, div_eq_mul_inv, hne]

lemma c4a_uy : triadUy ⟨0, 0, 0⟩ ⟨1, 1, 0⟩ ⟨0, 1, 0⟩ =
    ⟨-(1 / Real.sqrt 2), 1 / Real.sqrt 2, 0⟩ := by
  unfold triadUy
  rw [c4a_uz, c4a_ux,
    show Vcross ⟨0, 0, 1⟩ ⟨1 / Real.sqrt 2, 1 / Real.sqrt 2, 0⟩ =
      (⟨-(1 / Real.sqrt 2), 1 / Real.sqrt 2, 0⟩ : ChVector) by ext <;> norm_num [Vcross]]
  apply vnormalize_of_unit
  have h : (1 / Real.sqrt 2) * (1 / Real.sqrt 2) = 1 / 2 := by
    rw [div_mul_div_comm, sqrt_two_sq]
    norm_num
  simp only [Vdot]
  linear_combination 2 * h

lemma c4_trace_arg : 1 + (1 / Real.sqrt 2 + 1 / Real.sqrt 2 + 1) = 2 + Real.sqrt 2 := by
  have h2ne : Real.sqrt 2 ≠ 0 := ne_of_gt sqrt_two_pos
  field_simp
  linear_combination (-1 : ℝ) * sqrt_two_sq

lemma c4a_rot : (ChCoordsys.ofTriad ⟨0, 0, 0⟩ ⟨1, 1, 0⟩ ⟨0, 1, 0⟩).rot =
    ⟨Real.sqrt (2 + Real.sqrt 2) * 2 / 4, 0, 0,
     (-(1 / Real.sqrt 2) - 1 / Real.sqrt 2) / (Real.sqrt (2 + Real.sqrt 2) * 2)⟩ := by
  simp only [ChCoordsys.ofTriad, c4a_ux, c4a_uy, c4a_uz]
  rw [matToQuat_eq_pos (1 / Real.sqrt 2) (-(1 / Real.sqrt 2)) 0 (1 / Real.sqrt 2)
      (1 / Real.sqrt 2) 0 0 0 1 (by positivity), c4_trace_arg]
  ext <;> norm_num

lemma c4b_ux : triadUx ⟨0, 0, 0⟩ ⟨1, -1, 0⟩ ⟨0, 1, 0⟩ =
    ⟨1 / Real.sqrt 2, -(1 / Real.sqrt 2), 0⟩ := by
  unfold triadUx
  rw [show vsub ⟨1, -1, 0⟩ ⟨0, 0, 0⟩ = (⟨1, -1, 0⟩ : ChVector) by ext <;> norm_num [vsub]]
  unfold vnormalize Length Length2
  rw [show Vdot ⟨1, -1, 0⟩ ⟨1, -1, 0⟩ = 2 by norm_num [Vdot]]
  ext <;> simp [vdiv, neg_div]

lemma c4b_uz : triadUz ⟨0, 0, 0⟩ ⟨1, -1, 0⟩ ⟨0, 1, 0⟩ = ⟨0, 0, 1⟩ := by
  unfold triadUz
  rw [c4b_ux,
    show vsub ⟨0, 1, 0⟩ ⟨0, 0, 0⟩ = (⟨0, 1, 0⟩ : ChVector) by ext <;> norm_num [vsub],
    show Vcross ⟨1 / Real.sqrt 2, -(1 / Real.sqrt 2), 0⟩ ⟨0, 1, 0⟩ =
      (⟨0, 0, 1 / Real.sqrt 2⟩ : ChVector) by ext <;> norm_num [Vcross]]
  unfold vnormalize Length Length2
  rw [show Vdot ⟨0, 0, 1 / Real.sqrt 2⟩ ⟨0, 0, 1 / Real.sqrt 2⟩ = 1 / 2 by
      simp only [Vdot]
      rw [div_mul_div_comm, sqrt_two_sq]
      norm_num,
    show (1 / 2 : ℝ) = 2⁻¹ by norm_num, Real.sqrt_inv]
  have hne : (Real.sqrt 2)⁻¹ ≠ 0 := by positivity
  ext <;> simp [vdiv, div_eq_mul_inv, hne]

lemma c4b_uy : triadUy ⟨0, 0, 0⟩ ⟨1, -1, 0⟩ ⟨0, 1, 0⟩ =
    ⟨1 / Real.sqrt 2, 1 / Real.sqrt 2, 0⟩ := by
  unfold triadUy
  rw [c4b_uz, c4b_ux,
    show Vcross ⟨0, 0, 1⟩ ⟨1 / Real.sqrt 2, -(1 / Real.sqrt 2), 0⟩ =
      (⟨1 / Real.sqrt 2, 1 / Real.sqrt 2, 0⟩ : ChVector) by ext <;> norm_num [Vcross]]
  apply vnormalize_of_unit
  have h : (1 / Real.sqrt 2) * (1 / Real.sqrt 2) = 1 / 2 := by
    rw [div_mul_div_comm, sqrt_two_sq]
    norm_num
  simp only [Vdot]
  linear_combination 2 * h

lemma c4b_rot : (ChCoordsys.ofTriad ⟨0, 0, 0⟩ ⟨1, -1, 0⟩ ⟨0, 1, 0⟩).rot =
    ⟨Real.sqrt (2 + Real.sqrt 2) * 2 / 4, 0, 0,
     (1 / Real.sqrt 2 + 1 / Real.sqrt 2) / (Real.sqrt (2 + Real.sqrt 2) * 2)⟩ := by
  simp only [ChCoordsys.ofTriad, c4b_ux, c4b_uy, c4b_uz]
  rw [matToQuat_eq_pos (1 / Real.sqrt 2) (1 / Real.sqrt 2) 0 (-(1 / Real.sqrt 2))
      (1 / Real.sqrt 2) 0 0 0 1 (by positivity), c4_trace_arg]
  ext <;> norm_num

/-- C4: the two 45-degree triads yield quaternions approximately
`(0.92388, 0, 0, ∓0.382683)` (within `1e-4`, with the middle components
exactly zero), and the sign of the last component flips between the two
inputs. -/
theorem C4_triad_45deg_approx :
    |(ChCoordsys.ofTriad ⟨0, 0, 0⟩ ⟨1, 1, 0⟩ ⟨0, 1, 0⟩).rot.e0 - 0.92388| < 1e-4 ∧
    (ChCoordsys.ofTriad ⟨0, 0, 0⟩ ⟨1, 1, 0⟩ ⟨0, 1, 0⟩).rot.e1 = 0 ∧
    (ChCoordsys.ofTriad ⟨0, 0, 0⟩ ⟨1, 1, 0⟩ ⟨0, 1, 0⟩).rot.e2 = 0 ∧
    |(ChCoordsys.ofTriad ⟨0, 0, 0⟩ ⟨1, 1, 0⟩ ⟨0, 1, 0⟩).rot.e3 - (-0.382683)| < 1e-4 ∧
    |(ChCoordsys.ofTriad ⟨0, 0, 0⟩ ⟨1, -1, 0⟩ ⟨0, 1, 0⟩).rot.e0 - 0.92388| < 1e-4 ∧
    (ChCoordsys.ofTriad ⟨0, 0, 0⟩ ⟨1, -1, 0⟩ ⟨0, 1, 0⟩).rot.e1 = 0 ∧
    (ChCoordsys.ofTriad ⟨0, 0, 0⟩ ⟨1, -1, 0⟩ ⟨0, 1, 0⟩).rot.e2 = 0 ∧
    |(ChCoordsys.ofTriad ⟨0, 0, 0⟩ ⟨1, -1, 0⟩ ⟨0, 1, 0⟩).rot.e3 - 0.382683| < 1e-4 ∧
    (ChCoordsys.ofTriad ⟨0, 0, 0⟩ ⟨1, -1, 0⟩ ⟨0, 1, 0⟩).rot.e3 =
      -(ChCoordsys.ofTriad ⟨0, 0, 0⟩ ⟨1, 1, 0⟩ ⟨0, 1, 0⟩).rot.e3 := by
  rw [c4a_rot, c4b_rot]
  have h2ne : Real.sqrt 2 ≠ 0 := ne_of_gt sqrt_two_pos
  have hTpos : 0 < Real.sqrt (2 + Real.sqrt 2) := Real.sqrt_pos.mpr (by positivity)
  have hTl : (1.84775 : ℝ) < Real.sqrt (2 + Real.sqrt 2) := by
    rw [Real.lt_sqrt (by norm_num)]
    nlinarith [sqrt_two_gt]
  have hTu : Real.sqrt (2 + Real.sqrt 2) < (1.84779 : ℝ) := by
    rw [Real.sqrt_lt' (by norm_num)]
    nlinarith [sqrt_two_lt]
  have hsum2 : 1 / Real.sqrt 2 + 1 / Real.sqrt 2 = Real.sqrt 2 := by
    rw [div_add_div_same, div_eq_iff h2ne, sqrt_two_sq]
    norm_num
  have hsum : -(1 / Real.sqrt 2) - 1 / Real.sqrt 2 = -Real.sqrt 2 := by
    rw [show -(1 / Real.sqrt 2) - 1 / Real.sqrt 2 = -(1 / Real.sqrt 2 + 1 / Real.sqrt 2) by
        ring, hsum2]
  have hq_lt : Real.sqrt 2 / (Real.sqrt (2 + Real.sqrt 2) * 2) < 0.382783 := by
    rw [div_lt_iff (by positivity)]
    nlinarith [sqrt_two_lt, hTl]
  have hq_gt : (0.382583 : ℝ) < Real.sqrt 2 / (Real.sqrt (2 + Real.sqrt 2) * 2) := by
    rw [lt_div_iff (by positivity)]
    nlinarith [sqrt_two_gt, hTu]
  refine ⟨?_, rfl, rfl, ?_, ?_, rfl, rfl, ?_, by ring⟩
  · rw [abs_lt]
    constructor <;> nlinarith [hTl, hTu]
  · rw [hsum, neg_div, abs_lt]
    constructor <;> nlinarith [hq_lt, hq_gt]
  · rw [abs_lt]
    constructor <;> nlinarith [hTl, hTu]
  · rw [hsum2, abs_lt]
    constructor <;> nlinarith [hq_lt, hq_gt]

/-! Section: C3: the trace ≥ 0 conversion formula -/

/-- The claimed `trace ≥ 0` formula, written from the spec's words for
comparison with the source: `e1 = (R21 − R12)/s`, `e2 = (R02 − R20)/s`,
`e3 = (R10 − R01)/s`, where `R` is the matrix whose columns are
`ux, uy, uz` and `Rij` is the entry at row `i`, column `j`. -/
def specTriadQuatPos (origin xdir ydir : ChVector) : ChQuaternion :=
  let ux := triadUx origin xdir ydir
  let uy := triadUy origin xdir ydir
  let uz := triadUz origin xdir ydir
  let s := Real.sqrt (1 + (ux.x + uy.y + uz.z)) * 2
  ⟨s / 4, (uy.z - uz.y) / s, (uz.x - ux.z) / s, (ux.y - uy.x) / s⟩

lemma c3_spec_eval : specTriadQuatPos ⟨0, 0, 0⟩ ⟨1, 1, 0⟩ ⟨0, 1, 0⟩ =
    ⟨Real.sqrt (2 + Real.sqrt 2) * 2 / 4, 0, 0,
     (1 / Real.sqrt 2 + 1 / Real.sqrt 2) / (Real.sqrt (2 + Real.sqrt 2) * 2)⟩ := by
  simp only [specTriadQuatPos, c4a_ux, c4a_uy, c4a_uz]
  rw [show ((⟨1 / Real.sqrt 2, 1 / Real.sqrt 2, 0⟩ : ChVector).x +
      (⟨-(1 / Real.sqrt 2), 1 / Real.sqrt 2, 0⟩ : ChVector).y +
      (⟨0, 0, 1⟩ : ChVector).z) = 1 / Real.sqrt 2 + 1 / Real.sqrt 2 + 1 from rfl,
    c4_trace_arg]
  ext <;> norm_num

/-- C3 counterexample: at the concrete triad `origin=(0,0,0)`,
`xdir=(1,1,0)`, `ydir=(0,1,0)` the trace is nonnegative, yet the
constructed quaternion differs from the claim's formula (the vector
components have the opposite sign). -/
theorem C3_counterexample :
    0 ≤ triadTrace ⟨0, 0, 0⟩ ⟨1, 1, 0⟩ ⟨0, 1, 0⟩ ∧
    (ChCoordsys.ofTriad ⟨0, 0, 0⟩ ⟨1, 1, 0⟩ ⟨0, 1, 0⟩).rot ≠
      specTriadQuatPos ⟨0, 0, 0⟩ ⟨1, 1, 0⟩ ⟨0, 1, 0⟩ := by
  constructor
  · simp only [triadTrace, c4a_ux, c4a_uy, c4a_uz]
    show (0 : ℝ) ≤ 1 / Real.sqrt 2 + 1 / Real.sqrt 2 + 1
    positivity
  · intro heq
    rw [c4a_rot, c3_spec_eval] at heq
    have he3 : (-(1 / Real.sqrt 2) - 1 / Real.sqrt 2) / (Real.sqrt (2 + Real.sqrt 2) * 2) =
        (1 / Real.sqrt 2 + 1 / Real.sqrt 2) / (Real.sqrt (2 + Real.sqrt 2) * 2) :=
      congrArg ChQuaternion.e3 heq
    have hpos : (0 : ℝ) < 1 / Real.sqrt 2 := by positivity
    have hneg : (-(1 / Real.sqrt 2) - 1 / Real.sqrt 2) /
        (Real.sqrt (2 + Real.sqrt 2) * 2) < 0 := by
      apply div_neg_of_neg_of_pos
      · linarith
      · positivity
    have hgt : (0 : ℝ) < (1 / Real.sqrt 2 + 1 / Real.sqrt 2) /
        (Real.sqrt (2 + Real.sqrt 2) * 2) := by positivity
    linarith [he3, hneg, hgt]

/-- C3 (amended): when the trace is nonnegative, the constructor computes
`e0 = s/4`, `e1 = (R12 − R21)/s`, `e2 = (R20 − R02)/s`,
`e3 = (R01 − R10)/s` with `s = 2·sqrt(1 + trace)` — the transposed index
pairs relative to the claim. -/
theorem C3_amended_trace_pos_formula (origin xdir ydir : ChVector)
    (h : 0 ≤ triadTrace origin xdir ydir) :
    (ChCoordsys.ofTriad origin xdir ydir).rot =
      ⟨Real.sqrt (1 + triadTrace origin xdir ydir) * 2 / 4,
       ((triadUz origin xdir ydir).y - (triadUy origin xdir ydir).z) /
         (Real.sqrt (1 + triadTrace origin xdir ydir) * 2),
       ((triadUx origin xdir ydir).z - (triadUz origin xdir ydir).x) /
         (Real.sqrt (1 + triadTrace origin xdir ydir) * 2),
       ((triadUy origin xdir ydir).x - (triadUx origin xdir ydir).y) /
         (Real.sqrt (1 + triadTrace origin xdir ydir) * 2)⟩ := by
  simp only [ChCoordsys.ofTriad, triadTrace] at h ⊢
  exact matToQuat_eq_pos _ _ _ _ _ _ _ _ _ h

/-- Witness for the amended C3 at the concrete 45-degree triad. -/
theorem C3_witness :
    0 ≤ triadTrace ⟨0, 0, 0⟩ ⟨1, 1, 0⟩ ⟨0, 1, 0⟩ ∧
    (ChCoordsys.ofTriad ⟨0, 0, 0⟩ ⟨1, 1, 0⟩ ⟨0, 1, 0⟩).rot =
      ⟨Real.sqrt (1 + triadTrace ⟨0, 0, 0⟩ ⟨1, 1, 0⟩ ⟨0, 1, 0⟩) * 2 / 4,
       ((triadUz ⟨0, 0, 0⟩ ⟨1, 1, 0⟩ ⟨0, 1, 0⟩).y - (triadUy ⟨0, 0, 0⟩ ⟨1, 1, 0⟩ ⟨0, 1, 0⟩).z) /
         (Real.sqrt (1 + triadTrace ⟨0, 0, 0⟩ ⟨1, 1, 0⟩ ⟨0, 1, 0⟩) * 2),
       ((triadUx ⟨0, 0, 0⟩ ⟨1, 1, 0⟩ ⟨0, 1, 0⟩).z - (triadUz ⟨0, 0, 0⟩ ⟨1, 1, 0⟩ ⟨0, 1, 0⟩).x) /
         (Real.sqrt (1 + triadTrace ⟨0, 0, 0⟩ ⟨1, 1, 0⟩ ⟨0, 1, 0⟩) * 2),
       ((triadUy ⟨0, 0, 0⟩ ⟨1, 1, 0⟩ ⟨0, 1, 0⟩).x - (triadUx ⟨0, 0, 0⟩ ⟨1, 1, 0⟩ ⟨0, 1, 0⟩).y) /
         (Real.sqrt (1 + triadTrace ⟨0, 0, 0⟩ ⟨1, 1, 0⟩ ⟨0, 1, 0⟩) * 2)⟩ := by
  have htr : 0 ≤ triadTrace ⟨0, 0, 0⟩ ⟨1, 1, 0⟩ ⟨0, 1, 0⟩ := by
    simp only [triadTrace, c4a_ux, c4a_uy, c4a_uz]
    show (0 : ℝ) ≤ 1 / Real.sqrt 2 + 1 / Real.sqrt 2 + 1
    positivity
  exact ⟨htr, C3_amended_trace_pos_formula ⟨0, 0, 0⟩ ⟨1, 1, 0⟩ ⟨0, 1, 0⟩ htr⟩

/-! Section: C1 -/

/-- C1: for every pose `A` (with unit-norm orientation) and pose `B`,
`A.TransformLocalToParent(B)` has position
`A.TransformLocalToParent(B.pos) = A.pos + A.rot.Rotate(B.pos)` and
orientation the quaternion product `A.rot * B.rot`. -/
theorem C1_transformLocalToParentCsys_spec (A B : ChCoordsys) (hA : QnormSq A.rot = 1) :
    (A.TransformLocalToParentCsys B).pos = A.TransformLocalToParent B.pos ∧
    A.TransformLocalToParent B.pos = vadd A.pos (A.rot.Rotate B.pos) ∧
    (A.TransformLocalToParentCsys B).rot = Qcross A.rot B.rot :=
  ⟨rfl, rfl, rfl⟩

/-- Witness for C1 at a concrete unit-norm pose. -/
theorem C1_witness :
    QnormSq (⟨1, 0, 0, 0⟩ : ChQuaternion) = 1 ∧
    ((⟨⟨5, 6, 7⟩, ⟨1, 0, 0, 0⟩⟩ : ChCoordsys).TransformLocalToParentCsys
        ⟨⟨2, 3, 4⟩, ⟨0, 1, 0, 0⟩⟩).rot =
      Qcross ⟨1, 0, 0, 0⟩ ⟨0, 1, 0, 0⟩ :=
  ⟨by norm_num [QnormSq],
   (C1_transformLocalToParentCsys_spec ⟨⟨5, 6, 7⟩, ⟨1, 0, 0, 0⟩⟩ ⟨⟨2, 3, 4⟩, ⟨0, 1, 0, 0⟩⟩
      (by norm_num [QnormSq])).2.2⟩

/-! Section: C7 -/

/-- C7: for every pose `A` with unit-norm orientation and every point `p`,
`A.TransformParentToLocal (A.TransformLocalToParent p) = p` (exact round
trip in real arithmetic). -/
theorem C7_roundtrip (A : ChCoordsys) (p : ChVector) (hA : QnormSq A.rot = 1) :
    A.TransformParentToLocal (A.TransformLocalToParent p) = p := by
  unfold ChCoordsys.TransformParentToLocal ChCoordsys.TransformLocalToParent
  rw [vsub_vadd_cancel, rotateBack_rotate, hA]
  norm_num [vscale_one]

/-- Witness for C7 at a concrete unit-norm pose and point. -/
theorem C7_witness :
    QnormSq (⟨0, 0, 1, 0⟩ : ChQuaternion) = 1 ∧
    (⟨⟨5, 6, 7⟩, ⟨0, 0, 1, 0⟩⟩ : ChCoordsys).TransformParentToLocal
      ((⟨⟨5, 6, 7⟩, ⟨0, 0, 1, 0⟩⟩ : ChCoordsys).TransformLocalToParent ⟨2, 3, 4⟩) = ⟨2, 3, 4⟩ :=
  ⟨by norm_num [QnormSq],
   C7_roundtrip ⟨⟨5, 6, 7⟩, ⟨0, 0, 1, 0⟩⟩ ⟨2, 3, 4⟩ (by norm_num [QnormSq])⟩

/-! Section: C8 -/

/-- C8: pose composition is associative: for all poses `A`, `B`, `C` with
unit-norm orientations, `(A * B) * C = A * (B * C)` where `*` is
`TransformLocalToParent` on coordinate systems (exact in real
arithmetic). -/
theorem C8_composition_assoc (A B C : ChCoordsys)
    (hA : QnormSq A.rot = 1) (hB : QnormSq B.rot = 1) (hC : QnormSq C.rot = 1) :
    (A.TransformLocalToParentCsys B).TransformLocalToParentCsys C =
      A.TransformLocalToParentCsys (B.TransformLocalToParentCsys C) := by
  ext <;>
    simp only [ChCoordsys.TransformLocalToParentCsys, ChCoordsys.TransformLocalToParent,
      ChQuaternion.Rotate, ChQuaternion.GetConjugate, Qcross, pureQuat, vadd] <;>
    ring

/-- Witness for C8 at three concrete unit-norm poses. -/
theorem C8_witness :
    QnormSq (⟨0, 1, 0, 0⟩ : ChQuaternion) = 1 ∧
    (((⟨⟨1, 0, 0⟩, ⟨0, 1, 0, 0⟩⟩ : ChCoordsys).TransformLocalToParentCsys
          ⟨⟨0, 2, 0⟩, ⟨0, 0, 1, 0⟩⟩).TransformLocalToParentCsys
        ⟨⟨0, 0, 3⟩, ⟨0, 0, 0, 1⟩⟩) =
      (⟨⟨1, 0, 0⟩, ⟨0, 1, 0, 0⟩⟩ : ChCoordsys).TransformLocalToParentCsys
        ((⟨⟨0, 2, 0⟩, ⟨0, 0, 1, 0⟩⟩ : ChCoordsys).TransformLocalToParentCsys
          ⟨⟨0, 0, 3⟩, ⟨0, 0, 0, 1⟩⟩) :=
  ⟨by norm_num [QnormSq],
   C8_composition_assoc ⟨⟨1, 0, 0⟩, ⟨0, 1, 0, 0⟩⟩ ⟨⟨0, 2, 0⟩, ⟨0, 0, 1, 0⟩⟩
     ⟨⟨0, 0, 3⟩, ⟨0, 0, 0, 1⟩⟩ (by norm_num [QnormSq]) (by norm_num [QnormSq])
     (by norm_num [QnormSq])⟩

/-! Section: C9, C10, C2: the disc-terrain contact query -/

/-- Flat terrain at height zero with upward unit normals, used as a
concrete terrain oracle. -/
def flatTerrain : ChTerrain := ⟨fun _ _ => 0, fun _ _ => ⟨0, 0, 1⟩⟩

/-- C9: for every terrain oracle, disc center and positive radius, the
contact query with the exactly horizontal disc normal `(0,0,1)` returns
`false`: every execution path ends in a non-contact outcome. -/
theorem C9_horizontal_disc_no_contact (terrain : ChTerrain) (center : ChVector)
    (radius : ℝ) (contact : ChCoordsys) (depth : ℝ) (hr : 0 < radius) :
    (disc_terrain_contact terrain center ⟨0, 0, 1⟩ radius contact depth).1 = false := by
  have hzero : Length2 (Vcross (⟨0, 0, 1⟩ : ChVector) ⟨0, 0, 1⟩) = 0 := by
    norm_num [Length2, Vcross, Vdot]
  simp only [disc_terrain_contact]
  split_ifs with hg1 hg2 hg3 <;> try rfl
  exfalso
  rw [hzero] at hg2
  exact hg2 (by norm_num)

/-- Witness for C9 at a concrete terrain, center and radius. -/
theorem C9_witness :
    (0 : ℝ) < 1 ∧
    (disc_terrain_contact flatTerrain ⟨0, 0, 5⟩ ⟨0, 0, 1⟩ 1
      ⟨⟨1, 2, 3⟩, ⟨1, 0, 0, 0⟩⟩ 7).1 = false :=
  ⟨by norm_num,
   C9_horizontal_disc_no_contact flatTerrain ⟨0, 0, 5⟩ 1 ⟨⟨1, 2, 3⟩, ⟨1, 0, 0, 0⟩⟩ 7
     (by norm_num)⟩

/-- C10: whenever the contact query returns `false` (any of its early-exit
paths), the output parameters `contact` and `depth` are returned
unchanged; they are written only on the `true` path. -/
theorem C10_outputs_unchanged_on_false (terrain : ChTerrain)
    (center dnormal : ChVector) (radius : ℝ) (contact : ChCoordsys) (depth : ℝ)
    (h : (disc_terrain_contact terrain center dnormal radius contact depth).1 = false) :
    (disc_terrain_contact terrain center dnormal radius contact depth).2.1 = contact ∧
    (disc_terrain_contact terrain center dnormal radius contact depth).2.2 = depth := by
  simp only [disc_terrain_contact] at h ⊢
  split_ifs at h ⊢ <;> exact ⟨rfl, rfl⟩

/-- Witness for C10 at a concrete early-exit input (disc center a full
radius above the flat terrain). -/
theorem C10_witness :
    (disc_terrain_contact flatTerrain ⟨0, 0, 5⟩ ⟨0, 0, 1⟩ 1
      ⟨⟨1, 2, 3⟩, ⟨1, 0, 0, 0⟩⟩ 7).1 = false ∧
    (disc_terrain_contact flatTerrain ⟨0, 0, 5⟩ ⟨0, 0, 1⟩ 1
      ⟨⟨1, 2, 3⟩, ⟨1, 0, 0, 0⟩⟩ 7).2.1 = ⟨⟨1, 2, 3⟩, ⟨1, 0, 0, 0⟩⟩ ∧
    (disc_terrain_contact flatTerrain ⟨0, 0, 5⟩ ⟨0, 0, 1⟩ 1
      ⟨⟨1, 2, 3⟩, ⟨1, 0, 0, 0⟩⟩ 7).2.2 = 7 := by
  have hfalse : (disc_terrain_contact flatTerrain ⟨0, 0, 5⟩ ⟨0, 0, 1⟩ 1
      ⟨⟨1, 2, 3⟩, ⟨1, 0, 0, 0⟩⟩ 7).1 = false := by
    simp only [disc_terrain_contact, flatTerrain]
    rw [if_pos (Or.inr (by norm_num))]
  have h2 := C10_outputs_unchanged_on_false flatTerrain ⟨0, 0, 5⟩ ⟨0, 0, 1⟩ 1
    ⟨⟨1, 2, 3⟩, ⟨1, 0, 0, 0⟩⟩ 7 hfalse
  exact ⟨hfalse, h2.1, h2.2⟩

lemma sqrt_three_sq : Real.sqrt 3 * Real.sqrt 3 = 3 := Real.mul_self_sqrt (by norm_num)

/-- C2: at the boundary input where the disc's lowest rim point touches
the flat terrain exactly (`ptD.z = hp`), the query reports contact with a
unit-norm disc normal and positive radius, yet the written depth is `0`,
not strictly positive — violating the code's own `assert(depth > 0)`. -/
theorem C2_boundary_contact_zero_depth :
    Vdot (⟨1 / 2, 0, Real.sqrt 3 / 2⟩ : ChVector) ⟨1 / 2, 0, Real.sqrt 3 / 2⟩ = 1 ∧
    (0 : ℝ) < 1 ∧
    (disc_terrain_contact flatTerrain ⟨0, 0, 1 / 2⟩ ⟨1 / 2, 0, Real.sqrt 3 / 2⟩ 1
      ⟨⟨0, 0, 0⟩, ⟨1, 0, 0, 0⟩⟩ 5).1 = true ∧
    (disc_terrain_contact flatTerrain ⟨0, 0, 1 / 2⟩ ⟨1 / 2, 0, Real.sqrt 3 / 2⟩ 1
      ⟨⟨0, 0, 0⟩, ⟨1, 0, 0, 0⟩⟩ 5).2.2 = 0 := by
  have e1 : Vcross (⟨1 / 2, 0, Real.sqrt 3 / 2⟩ : ChVector) ⟨0, 0, 1⟩ =
      ⟨0, -(1 / 2), 0⟩ := by ext <;> norm_num [Vcross]
  have e2 : Length2 (⟨0, -(1 / 2), 0⟩ : ChVector) = 1 / 4 := by
    norm_num [Length2, Vdot]
  have e3 : Real.sqrt (1 / 4 : ℝ) = 1 / 2 := by
    rw [show (1 / 4 : ℝ) = (1 / 2) ^ 2 by norm_num,
      Real.sqrt_sq (by norm_num : (0 : ℝ) ≤ 1 / 2)]
  have e4 : vdiv (⟨0, -(1 / 2), 0⟩ : ChVector) (1 / 2) = ⟨0, -1, 0⟩ := by
    ext <;> norm_num [vdiv]
  have e5 : Vcross (⟨1 / 2, 0, Real.sqrt 3 / 2⟩ : ChVector) ⟨0, -1, 0⟩ =
      ⟨Real.sqrt 3 / 2, 0, -(1 / 2)⟩ := by ext <;> norm_num [Vcross]
  have e6 : vadd (⟨0, 0, 1 / 2⟩ : ChVector) (vscale 1 ⟨Real.sqrt 3 / 2, 0, -(1 / 2)⟩) =
      ⟨Real.sqrt 3 / 2, 0, 0⟩ := by ext <;> norm_num [vadd, vscale]
  refine ⟨by simp only [Vdot]; linear_combination sqrt_three_sq / 4, by norm_num, ?_⟩
  simp only [disc_terrain_contact, flatTerrain, e1, e2, e3, e4, e5, e6]
  split_ifs with hg1 hg2 hg3
  · exact absurd hg1 (by norm_num)
  · exact absurd hg2 (by norm_num)
  · exact absurd hg3 (by norm_num)
  · exact ⟨rfl, by norm_num [Vdot]⟩

end Chrono

end
